import Mathlib

/-!
Verification of the webrtc-chat core against its design notes.

We shallowly embed the connection-string codec and validation of the
serverless signaling service, the ICE-gathering waits of the two WebRTC
manager classes, the announce schedule and readiness detection of the
Trystero room manager, and the message transport send and receive paths.

JavaScript strings are sequences of UTF-16 code units and are modelled as
lists of natural numbers.  The browser built-ins btoa, atob, JSON.stringify
and JSON.parse are modelled as executable functions on such lists; the
JSON.parse model uses a fuel argument (input length plus one) so that every
definition is structurally recursive and evaluates inside the kernel.
-/

/-- A JavaScript string: its list of UTF-16 code units. -/
abbrev JStr := List Nat

/-- Whitespace removed by String.prototype.trim and by forgiving base64
decoding: tab 9, linefeed 10, vertical tab 11, formfeed 12, carriage
return 13, space 32. -/
def isTrimWs (u : Nat) : Bool :=
  u = 9 || u = 10 || u = 11 || u = 12 || u = 13 || u = 32

/-- Whitespace skipped between JSON tokens: tab 9, linefeed 10, carriage
return 13, space 32. -/
def isJsonWs (u : Nat) : Bool :=
  u = 9 || u = 10 || u = 13 || u = 32

/-- Decimal digit code units 48 to 57. -/
def isDigitU (u : Nat) : Bool :=
  48 ≤ u && u ≤ 57

/-- Skip JSON inter-token whitespace. -/
def skipWs (s : JStr) : JStr := s.dropWhile isJsonWs

/-- Model of String.prototype.trim: drop whitespace at both ends. -/
def trimU (s : JStr) : JStr :=
  ((s.dropWhile isTrimWs).reverse.dropWhile isTrimWs).reverse

/-- The base64 alphabet: sextet 0 to 63 mapped to its code unit
(A to Z, a to z, 0 to 9, plus 43, slash 47). -/
def b64char (n : Nat) : Nat :=
  if n < 26 then 65 + n
  else if n < 52 then 97 + (n - 26)
  else if n < 62 then 48 + (n - 52)
  else if n = 62 then 43
  else 47

/-- Inverse of the base64 alphabet; none on a unit outside the alphabet. -/
def b64val (c : Nat) : Option Nat :=
  if 65 ≤ c ∧ c ≤ 90 then some (c - 65)
  else if 97 ≤ c ∧ c ≤ 122 then some (26 + (c - 97))
  else if 48 ≤ c ∧ c ≤ 57 then some (52 + (c - 48))
  else if c = 43 then some 62
  else if c = 47 then some 63
  else none

/-- Base64 encoding of a byte list, three input bytes to four output units,
padded with equals signs (code 61), exactly as btoa emits it. -/
def btoaChunks : JStr → JStr
  | [] => []
  | [a] => [b64char (a / 4), b64char (a % 4 * 16), 61, 61]
  | [a, b] => [b64char (a / 4), b64char (a % 4 * 16 + b / 16), b64char (b % 16 * 4), 61]
  | a :: b :: c :: rest =>
      b64char (a / 4) :: b64char (a % 4 * 16 + b / 16) :: b64char (b % 16 * 4 + c / 64)
        :: b64char (c % 64) :: btoaChunks rest

/-- Model of the browser built-in btoa: fails (throws InvalidCharacterError,
modelled as none) when some code unit of the argument exceeds 255, and
otherwise base64 encodes the units as bytes. -/
def btoa (s : JStr) : Option JStr :=
  if s.all (fun u => u < 256) then some (btoaChunks s) else none

/-- Decode base64 groups of four units into three bytes, with forgiving
final group handling: a final group of two units, or of three or four
units with padding (equals sign, code 61), yields one or two bytes, and
leftover bits are discarded.  A leftover single unit, a padding unit in a
non-final position, or a unit outside the alphabet is an error. -/
def atobCore : JStr → Option JStr
  | [] => some []
  | [c1, c2] => do
      let v1 ← b64val c1
      let v2 ← b64val c2
      pure [v1 * 4 + v2 / 16]
  | [c1, c2, c3] =>
      if c3 = 61 then do
        let v1 ← b64val c1
        let v2 ← b64val c2
        pure [v1 * 4 + v2 / 16]
      else do
        let v1 ← b64val c1
        let v2 ← b64val c2
        let v3 ← b64val c3
        pure [v1 * 4 + v2 / 16, v2 % 16 * 16 + v3 / 4]
  | [_] => none
  | c1 :: c2 :: c3 :: c4 :: rest =>
      if c4 = 61 then
        if rest = [] then
          if c3 = 61 then do
            let v1 ← b64val c1
            let v2 ← b64val c2
            pure [v1 * 4 + v2 / 16]
          else do
            let v1 ← b64val c1
            let v2 ← b64val c2
            let v3 ← b64val c3
            pure [v1 * 4 + v2 / 16, v2 % 16 * 16 + v3 / 4]
        else none
      else do
        let v1 ← b64val c1
        let v2 ← b64val c2
        let v3 ← b64val c3
        let v4 ← b64val c4
        let tail ← atobCore rest
        pure ((v1 * 4 + v2 / 16) :: (v2 % 16 * 16 + v3 / 4) :: (v3 % 4 * 64 + v4) :: tail)

/-- Model of the browser built-in atob (forgiving base64): remove ASCII
whitespace, then decode groups of four with padding allowed in the final
group only. -/
def atob (s : JStr) : Option JStr :=
  atobCore (s.filter (fun u => !(isTrimWs u)))

/-- Decimal digits of a natural number, most significant first; the first
argument is fuel, always called with fuel larger than the number of digits. -/
def natU : Nat → Nat → JStr
  | 0, _ => []
  | f + 1, n => if n < 10 then [48 + n] else natU f (n / 10) ++ [48 + n % 10]

/-- Decimal representation of a natural number as code units. -/
def natUnits (n : Nat) : JStr := natU (n + 1) n

/-- Decimal representation of an integer as code units, with a leading
minus sign (code 45) when negative, as Number.prototype.toString and
JSON.stringify render the integral numbers appearing in this codebase. -/
def intUnits : Int → JStr
  | Int.ofNat m => natUnits m
  | Int.negSucc m => 45 :: natUnits (m + 1)

/-- Value of a list of decimal digit units, most significant first. -/
def digitsVal (ds : JStr) : Nat :=
  ds.foldl (fun a d => a * 10 + (d - 48)) 0

/-- Parse a maximal run of decimal digits; none when the input does not
start with a digit. -/
def parseDigits (s : JStr) : Option (Nat × JStr) :=
  let ds := s.takeWhile isDigitU
  if ds.isEmpty then none else some (digitsVal ds, s.dropWhile isDigitU)

/-- The head of a list is not a decimal digit. -/
def headNotDigit (tail : JStr) : Prop :=
  ∀ u, tail.head? = some u → isDigitU u = false

/-- Lowercase hexadecimal digit for a value below 16. -/
def hexDigitChar (m : Nat) : Nat := if m < 10 then 48 + m else 87 + m

/-- Value of a hexadecimal digit unit, accepting both cases. -/
def hexVal (c : Nat) : Option Nat :=
  if 48 ≤ c ∧ c ≤ 57 then some (c - 48)
  else if 97 ≤ c ∧ c ≤ 102 then some (c - 87)
  else if 65 ≤ c ∧ c ≤ 70 then some (c - 55)
  else none

/-- JSON.stringify escaping of one string code unit: quote and backslash
get a backslash escape, the named control escapes are used for 8, 9, 10,
12, 13, other control units below 32 become a four digit hexadecimal
escape, and every other unit passes through unchanged. -/
def escapeChar (u : Nat) : JStr :=
  if u = 34 then [92, 34]
  else if u = 92 then [92, 92]
  else if u = 8 then [92, 98]
  else if u = 9 then [92, 116]
  else if u = 10 then [92, 110]
  else if u = 12 then [92, 102]
  else if u = 13 then [92, 114]
  else if u < 32 then [92, 117, 48, 48, hexDigitChar (u / 16), hexDigitChar (u % 16)]
  else [u]

/-- JSON.stringify escaping of a whole string body. -/
def escapeUnits : JStr → JStr
  | [] => []
  | u :: rest => escapeChar u ++ escapeUnits rest

/-- Parse a JSON string body up to and past the closing quote, decoding
escapes; the first argument is fuel, always called with fuel larger than
the input length. -/
def parseStrBody : Nat → JStr → Option (JStr × JStr)
  | 0, _ => none
  | _ + 1, [] => none
  | f + 1, u :: rest =>
      if u = 34 then some ([], rest)
      else if u = 92 then
        match rest with
        | [] => none
        | e :: rest2 =>
            if e = 34 then (parseStrBody f rest2).map (fun p => (34 :: p.1, p.2))
            else if e = 92 then (parseStrBody f rest2).map (fun p => (92 :: p.1, p.2))
            else if e = 47 then (parseStrBody f rest2).map (fun p => (47 :: p.1, p.2))
            else if e = 98 then (parseStrBody f rest2).map (fun p => (8 :: p.1, p.2))
            else if e = 116 then (parseStrBody f rest2).map (fun p => (9 :: p.1, p.2))
            else if e = 110 then (parseStrBody f rest2).map (fun p => (10 :: p.1, p.2))
            else if e = 102 then (parseStrBody f rest2).map (fun p => (12 :: p.1, p.2))
            else if e = 114 then (parseStrBody f rest2).map (fun p => (13 :: p.1, p.2))
            else if e = 117 then
              match rest2 with
              | h1 :: h2 :: h3 :: h4 :: rest3 =>
                  match hexVal h1, hexVal h2, hexVal h3, hexVal h4 with
                  | some v1, some v2, some v3, some v4 =>
                      (parseStrBody f rest3).map
                        (fun p => ((v1 * 4096 + v2 * 256 + v3 * 16 + v4) :: p.1, p.2))
                  | _, _, _, _ => none
              | _ => none
            else none
      else (parseStrBody f rest).map (fun p => (u :: p.1, p.2))

/-- JSON values.  Numbers are modelled as integers: every number in the
wire formats of this codebase (timestamps, file sizes) is integral. -/
inductive Json where
  | str (s : JStr)
  | num (n : Int)
  | bool (b : Bool)
  | null
  | arr (elems : List Json)
  | obj (fields : List (JStr × Json))

/-- Parsing mode: a value, the fields of an object after the opening
brace, or the elements of an array after the opening bracket. -/
inductive PMode where
  | value
  | objFields
  | arrElems

/-- Parser result for each mode. -/
inductive PRes where
  | v (j : Json)
  | fs (l : List (JStr × Json))
  | es (l : List Json)

/-- Recursive descent JSON parser, structurally recursive on a fuel
argument that decreases at each nesting step.  Modelling notes: only
integral numerals are recognised (no fractions or exponents occur in the
wire formats modelled here), and a few malformed corner inputs that
JSON.parse would reject, such as trailing commas, are accepted; no claim
exercises those corners. -/
def parseP : Nat → PMode → JStr → Option (PRes × JStr)
  | 0, _, _ => none
  | f + 1, PMode.value, input =>
      match skipWs input with
      | [] => none
      | u :: rest =>
          if u = 34 then
            match parseStrBody (rest.length + 1) rest with
            | some (s, r) => some (PRes.v (Json.str s), r)
            | none => none
          else if u = 123 then
            match parseP f PMode.objFields rest with
            | some (PRes.fs l, r) => some (PRes.v (Json.obj l), r)
            | _ => none
          else if u = 91 then
            match parseP f PMode.arrElems rest with
            | some (PRes.es l, r) => some (PRes.v (Json.arr l), r)
            | _ => none
          else if u = 116 then
            match rest with
            | 114 :: 117 :: 101 :: r => some (PRes.v (Json.bool true), r)
            | _ => none
          else if u = 102 then
            match rest with
            | 97 :: 108 :: 115 :: 101 :: r => some (PRes.v (Json.bool false), r)
            | _ => none
          else if u = 110 then
            match rest with
            | 117 :: 108 :: 108 :: r => some (PRes.v Json.null, r)
            | _ => none
          else if u = 45 then
            match parseDigits rest with
            | some (m, r) => some (PRes.v (Json.num (-(m : Int))), r)
            | none => none
          else if isDigitU u then
            match parseDigits (u :: rest) with
            | some (m, r) => some (PRes.v (Json.num (m : Int)), r)
            | none => none
          else none
  | f + 1, PMode.objFields, input =>
      match skipWs input with
      | [] => none
      | u :: rest =>
          if u = 125 then some (PRes.fs [], rest)
          else if u = 34 then
            match parseStrBody (rest.length + 1) rest with
            | none => none
            | some (k, r1) =>
                match skipWs r1 with
                | 58 :: r2 =>
                    (match parseP f PMode.value r2 with
                     | some (PRes.v j, r3) =>
                         (match skipWs r3 with
                          | 44 :: r4 =>
                              (match parseP f PMode.objFields r4 with
                               | some (PRes.fs l, r5) => some (PRes.fs ((k, j) :: l), r5)
                               | _ => none)
                          | 125 :: r4 => some (PRes.fs [(k, j)], r4)
                          | _ => none)
                     | _ => none)
                | _ => none
          else none
  | f + 1, PMode.arrElems, input =>
      match skipWs input with
      | [] => none
      | u :: rest =>
          if u = 93 then some (PRes.es [], rest)
          else
            match parseP f PMode.value (u :: rest) with
            | some (PRes.v j, r1) =>
                (match skipWs r1 with
                 | 44 :: r2 =>
                     (match parseP f PMode.arrElems r2 with
                      | some (PRes.es l, r3) => some (PRes.es (j :: l), r3)
                      | _ => none)
                 | 93 :: r2 => some (PRes.es [j], r2)
                 | _ => none)
            | _ => none

/-- Model of JSON.parse: parse one value and require only whitespace to
remain.  The fuel, input length plus one, bounds the nesting depth of any
parseable input. -/
def parseJson (s : JStr) : Option Json :=
  match parseP (s.length + 1) PMode.value s with
  | some (PRes.v j, rest) => if skipWs rest = [] then some j else none
  | _ => none

/-- Field lookup in a parsed object, first binding wins. -/
def lookupField : List (JStr × Json) → JStr → Option Json
  | [], _ => none
  | (k, v) :: rest, key => if k = key then some v else lookupField rest key

/-- JavaScript property read on a non-null value: a field of an object,
undefined (none) on everything else.  Reads on null are handled at the
call sites, where they throw. -/
def objGet (j : Json) (key : JStr) : Option Json :=
  match j with
  | Json.obj fields => lookupField fields key
  | _ => none

/-- Strict equality test of a possibly absent property against a string
literal, as in a JavaScript triple-equals against a string: true only when
the property is present, is a string, and has the same units. -/
def jsStrEq (v : Option Json) (lit : JStr) : Bool :=
  match v with
  | some (Json.str s) => decide (s = lit)
  | _ => false

/-! ## The signaling envelope of the serverless signaling service

ConnectionOffer and ConnectionAnswer of part 001 share one record shape:
a kind (the type field, offer or answer), a from record with userId and
nickname, a sessionId, a session description (the offer or answer field,
an RTCSessionDescriptionInit with type and sdp), and a timestamp. -/

/-- Offer or answer. -/
inductive EnvKind where
  | offer
  | answer
deriving DecidableEq

/-- The from field of an envelope. -/
structure FromInfo where
  userId : JStr
  nickname : JStr

/-- An RTCSessionDescriptionInit: its type string and its sdp string. -/
structure SessionDesc where
  descType : JStr
  sdp : JStr

/-- A signaling envelope of the serverless signaling service. -/
structure Envelope where
  kind : EnvKind
  sender : FromInfo
  sessionId : JStr
  payload : SessionDesc
  timestamp : Int

/-- Code units of the JSON key type. -/
def tyKey : JStr := [116, 121, 112, 101]

/-- Code units of the JSON key from. -/
def fromKey : JStr := [102, 114, 111, 109]

/-- Code units of the JSON key userId. -/
def userIdKey : JStr := [117, 115, 101, 114, 73, 100]

/-- Code units of the JSON key nickname. -/
def nicknameKey : JStr := [110, 105, 99, 107, 110, 97, 109, 101]

/-- Code units of the JSON key sessionId. -/
def sessionIdKey : JStr := [115, 101, 115, 115, 105, 111, 110, 73, 100]

/-- Code units of the literal offer, also the payload key of an offer. -/
def offerLit : JStr := [111, 102, 102, 101, 114]

/-- Code units of the literal answer, also the payload key of an answer. -/
def answerLit : JStr := [97, 110, 115, 119, 101, 114]

/-- Code units of the JSON key sdp. -/
def sdpKey : JStr := [115, 100, 112]

/-- Code units of the JSON key timestamp. -/
def tsKey : JStr := [116, 105, 109, 101, 115, 116, 97, 109, 112]

/-- The type literal of an envelope kind. -/
def kindLit : EnvKind → JStr
  | EnvKind.offer => offerLit
  | EnvKind.answer => answerLit

/-- The key under which the session description is stored: offer for an
offer envelope, answer for an answer envelope. -/
def payloadKey : EnvKind → JStr
  | EnvKind.offer => offerLit
  | EnvKind.answer => answerLit

/-- The JSON value JSON.parse recovers from a serialized envelope. -/
def envelopeToJson (e : Envelope) : Json :=
  Json.obj
    [(tyKey, Json.str (kindLit e.kind)),
     (fromKey, Json.obj
        [(userIdKey, Json.str e.sender.userId),
         (nicknameKey, Json.str e.sender.nickname)]),
     (sessionIdKey, Json.str e.sessionId),
     (payloadKey e.kind, Json.obj
        [(tyKey, Json.str e.payload.descType),
         (sdpKey, Json.str e.payload.sdp)]),
     (tsKey, Json.num e.timestamp)]

/-- A JSON string literal: quote, escaped body, quote. -/
def strJ (s : JStr) : JStr := 34 :: escapeUnits s ++ [34]

/-- A serialized object key followed by a colon.  The keys of the wire
formats are plain ASCII identifiers, which escaping leaves unchanged. -/
def keyJ (k : JStr) : JStr := 34 :: k ++ [34, 58]

/-- A serialized JSON string value followed by the rest of the text:
quote, escaped body, quote, rest. -/
def strV (s : JStr) (tail : JStr) : JStr := 34 :: (escapeUnits s ++ 34 :: tail)

/-- One serialized object field followed by the rest of the text: quoted
key, colon, then the serialized value with the rest of the text. -/
def fieldU (k : JStr) (x : JStr) : JStr := 34 :: (k ++ 34 :: 58 :: x)

/-- A serialized object: the opening brace before its field text; each
closing brace sits in the tail of its last field. -/
def objV (x : JStr) : JStr := 123 :: x

/-- JSON.stringify output for an envelope record, fields in insertion
order exactly as createOfferString and createAnswerString build them:
type, from (userId, nickname), sessionId, offer or answer (type, sdp),
timestamp.  Commas (44) separate fields and braces (123, 125) delimit
the two nested objects and the envelope itself. -/
def envUnits (e : Envelope) : JStr :=
  objV (fieldU tyKey (strV (kindLit e.kind) (44 ::
    fieldU fromKey (objV (fieldU userIdKey (strV e.sender.userId (44 ::
      fieldU nicknameKey (strV e.sender.nickname (125 :: 44 ::
    fieldU sessionIdKey (strV e.sessionId (44 ::
      fieldU (payloadKey e.kind) (objV (fieldU tyKey (strV e.payload.descType (44 ::
        fieldU sdpKey (strV e.payload.sdp (125 :: 44 ::
      fieldU tsKey (intUnits e.timestamp ++ 125 :: []))))))))))))))))))

/-- The encoding step of createOfferString and createAnswerString:
JSON.stringify then btoa.  None models the btoa throw on code units
above 255. -/
def encodeEnvelope (e : Envelope) : Option JStr :=
  btoa (envUnits e)

/-- The decoding prefix of processConnectionString: trim the input, atob
it, JSON.parse the result; none models the caught exception path. -/
def decodeToJson (s : JStr) : Option Json :=
  (atob (trimU s)).bind parseJson

/-- Read a parsed JSON value back as an envelope, requiring exactly the
fields the ConnectionOffer and ConnectionAnswer interfaces declare. -/
def jsonToEnvelope (j : Json) : Option Envelope :=
  match objGet j tyKey with
  | some (Json.str t) =>
      match (if t = offerLit then some EnvKind.offer
             else if t = answerLit then some EnvKind.answer else none) with
      | none => none
      | some k =>
          match objGet j fromKey with
          | some fv =>
              match objGet fv userIdKey, objGet fv nicknameKey with
              | some (Json.str uid), some (Json.str nick) =>
                  match objGet j sessionIdKey with
                  | some (Json.str sid) =>
                      match objGet j (payloadKey k) with
                      | some pv =>
                          match objGet pv tyKey, objGet pv sdpKey with
                          | some (Json.str dt), some (Json.str sdp) =>
                              match objGet j tsKey with
                              | some (Json.num ts) =>
                                  some ⟨k, ⟨uid, nick⟩, sid, ⟨dt, sdp⟩, ts⟩
                              | _ => none
                          | _, _ => none
                      | _ => none
                  | _ => none
              | _, _ => none
          | _ => none
  | _ => none

/-- The full decode of a connection string into an envelope. -/
def decodeEnvelope (s : JStr) : Option Envelope :=
  (decodeToJson s).bind jsonToEnvelope

/-- All code units below 256 (Latin-1), the range btoa accepts. -/
def latin1 (s : JStr) : Prop := ∀ u ∈ s, u < 256

/-- All string fields of an envelope within the btoa range. -/
def latin1Env (e : Envelope) : Prop :=
  latin1 e.sender.userId ∧ latin1 e.sender.nickname ∧ latin1 e.sessionId
    ∧ latin1 e.payload.descType ∧ latin1 e.payload.sdp

/-! ## The pending offer and answer stores

JavaScript Map keys are compared with SameValueZero: primitive keys by
value, object keys by reference.  The sessionId read off a parsed
envelope is a primitive in every real envelope; an object or array valued
sessionId would be keyed by its fresh reference, which no later lookup of
a freshly parsed value can equal. -/

/-- A primitive JavaScript Map key. -/
inductive PrimKey where
  | kstr (s : JStr)
  | knum (n : Int)
  | kbool (b : Bool)
  | knull
deriving DecidableEq

/-- A Map key as used for the pending stores: the undefined key of a
missing sessionId field, a primitive compared by value, or an object
compared by reference. -/
inductive SessKey where
  | undef
  | prim (p : PrimKey)
  | objLike
deriving DecidableEq

/-- The Map key of a possibly absent sessionId property value. -/
def keyOfField (v : Option Json) : SessKey :=
  match v with
  | none => SessKey.undef
  | some (Json.str s) => SessKey.prim (PrimKey.kstr s)
  | some (Json.num n) => SessKey.prim (PrimKey.knum n)
  | some (Json.bool b) => SessKey.prim (PrimKey.kbool b)
  | some Json.null => SessKey.prim PrimKey.knull
  | some (Json.obj _) => SessKey.objLike
  | some (Json.arr _) => SessKey.objLike

/-- An insertion-ordered Map from session keys to stored envelopes. -/
abbrev SigMap := List (SessKey × Json)

/-- Map.get for value-compared keys. -/
def mapLookup : SigMap → SessKey → Option Json
  | [], _ => none
  | (k2, v) :: rest, k => if k2 = k then some v else mapLookup rest k

/-- Map.get: an object key is a fresh reference, never an existing key. -/
def mapGet (m : SigMap) (k : SessKey) : Option Json :=
  match k with
  | SessKey.objLike => none
  | _ => mapLookup m k

/-- Map.has. -/
def mapHas (m : SigMap) (k : SessKey) : Bool := (mapGet m k).isSome

/-- Map.set for value-compared keys: replace in place or append. -/
def mapInsert : SigMap → SessKey → Json → SigMap
  | [], k, v => [(k, v)]
  | (k2, v2) :: rest, k, v =>
      if k2 = k then (k, v) :: rest else (k2, v2) :: mapInsert rest k v

/-- Map.set: an object key is a fresh reference, always a new entry. -/
def mapSet (m : SigMap) (k : SessKey) (v : Json) : SigMap :=
  match k with
  | SessKey.objLike => m ++ [(k, v)]
  | _ => mapInsert m k v

/-- The mutable state of a ServerlessSignalingService instance: the
pendingOffers and pendingAnswers maps. -/
structure SigState where
  pendingOffers : SigMap
  pendingAnswers : SigMap

/-- Model of ServerlessSignalingService.processConnectionString, with the
current time and the service state passed explicitly.  Mirrors the source
line by line: decode (any throw is caught and yields false), reject when
now minus the timestamp exceeds five minutes (a missing or non-numeric
timestamp makes the comparison a NaN comparison, which is false), then
branch on the type field; offers are rejected when self-originated or
when the sessionId is already stored, and otherwise stored; answers are
rejected when self-originated or when no pending offer matches the
sessionId, and otherwise stored.  Property reads on null throw and are
caught, yielding false. -/
def processConnectionString (userId : JStr) (now : Int) (st : SigState) (s : JStr) :
    Bool × SigState :=
  match decodeToJson s with
  | none => (false, st)
  | some data =>
      match data with
      | Json.null => (false, st)
      | _ =>
          let tooOld : Bool :=
            match objGet data tsKey with
            | some (Json.num ts) => decide (now - ts > 300000)
            | _ => false
          if tooOld then (false, st)
          else if jsStrEq (objGet data tyKey) offerLit then
            match objGet data fromKey with
            | none => (false, st)
            | some Json.null => (false, st)
            | some fromVal =>
                if jsStrEq (objGet fromVal userIdKey) userId then (false, st)
                else
                  let sid := keyOfField (objGet data sessionIdKey)
                  if mapHas st.pendingOffers sid then (false, st)
                  else (true, { st with pendingOffers := mapSet st.pendingOffers sid data })
          else if jsStrEq (objGet data tyKey) answerLit then
            match objGet data fromKey with
            | none => (false, st)
            | some Json.null => (false, st)
            | some fromVal =>
                if jsStrEq (objGet fromVal userIdKey) userId then (false, st)
                else
                  let sid := keyOfField (objGet data sessionIdKey)
                  match mapGet st.pendingOffers sid with
                  | none => (false, st)
                  | some _ =>
                      (true, { st with pendingAnswers := mapSet st.pendingAnswers sid data })
          else (false, st)

/-! ## ICE gathering waits (claim C2)

WebRTCManager.createPeerConnection resolves its gatheredCandidates
promise only when an onicecandidate event carries a null candidate;
createOffer and handleInvite await that promise with no timeout.
WebRTCService.waitForIceCandidates races the icegatheringstatechange
completion event against a five second timer. -/

/-- The candidate events a transport delivers: each carries a time and
either a candidate or null (the end of gathering signal). -/
abbrev IceTrace := List (Nat × Option JStr)

/-- Resolution time of the gatheredCandidates promise of
WebRTCManager.createPeerConnection over a given event trace: the time of
the first null-candidate event, and never if no such event occurs. -/
def gatheredCandidatesWait : IceTrace → Option Nat
  | [] => none
  | (t, none) :: _ => some t
  | (_, some _) :: rest => gatheredCandidatesWait rest

/-- Resolution time of WebRTCService.waitForIceCandidates: immediate when
gathering is already complete, else the completion event or the five
second timer, whichever fires first. -/
def waitForIceCandidates (initiallyComplete : Bool) (completeEventAt : Option Nat) : Nat :=
  if initiallyComplete then 0
  else
    match completeEventAt with
    | some t => if t ≤ 5000 then t else 5000
    | none => 5000

/-! ## The Trystero room manager announce schedule (claim C4) -/

/-- Configuration of a TrysteroManager. -/
structure TrysteroConfig where
  appId : JStr
  roomId : JStr
  userId : JStr
  userName : JStr

/-- The peer-info payload: local id and display name. -/
structure PeerInfoMsg where
  id : JStr
  name : JStr

/-- Target of a peer-info send: every peer, or one peer. -/
inductive SendTarget where
  | all
  | peer (p : JStr)
deriving DecidableEq

/-- A scheduled peer-info send: delay in milliseconds, payload, target. -/
structure ScheduledSend where
  delay : Nat
  info : PeerInfoMsg
  target : SendTarget

/-- The local peer-info of a configuration. -/
def trysteroMyInfo (cfg : TrysteroConfig) : PeerInfoMsg :=
  ⟨cfg.userId, cfg.userName⟩

/-- The peer-info sends TrysteroManager.joinRoom itself schedules: a
single setTimeout broadcasting the local info to all peers after 1000
milliseconds. -/
def joinRoomAnnounceTimers (cfg : TrysteroConfig) : List ScheduledSend :=
  [⟨1000, trysteroMyInfo cfg, SendTarget.all⟩]

/-- The peer-info sends the onPeerJoin handler registered by joinRoom
performs when the mesh reports a newly joined peer: one immediately and
one after 500 milliseconds, both directed at that peer. -/
def onMeshPeerJoinSends (cfg : TrysteroConfig) (peerId : JStr) : List ScheduledSend :=
  [⟨0, trysteroMyInfo cfg, SendTarget.peer peerId⟩,
   ⟨500, trysteroMyInfo cfg, SendTarget.peer peerId⟩]

/-! ## Readiness detection of the Trystero room manager (claim C7) -/

/-- What the interval callback observes at one tick: whether the
sendMessage function is set and how many peers are recorded. -/
structure ReadyObs where
  hasSendMessage : Bool
  peerCount : Nat

/-- The state the readiness interval manipulates: the isReady flag,
whether the interval is still scheduled, and the number of ready and
failure events emitted so far. -/
structure ReadySt where
  isReady : Bool
  intervalActive : Bool
  readyEvents : Nat
  failedEvents : Nat

/-- State right after setupReadyDetection schedules the interval. -/
def readyInit : ReadySt := ⟨false, true, 0, 0⟩

/-- The readiness condition of the interval callback: the sendMessage
function exists, and there is at least one peer or two seconds have
elapsed. -/
def readyCond (o : ReadyObs) (elapsed : Nat) : Bool :=
  o.hasSendMessage && (decide (o.peerCount > 0) || decide (elapsed ≥ 2000))

/-- One invocation of the interval callback of setupReadyDetection.
A cleared interval never runs.  The callback first takes the readiness
branch (set isReady, emit onConnectionReady, clear the interval), then,
in the same invocation, the ten second ceiling branch: when elapsed time
reaches 10000 it emits onConnectionFailed if and only if isReady is still
false, and clears the interval. -/
def readyTick (o : ReadyObs) (elapsed : Nat) (s : ReadySt) : ReadySt :=
  if s.intervalActive then
    let s1 :=
      if s.isReady = false ∧ readyCond o elapsed = true then
        { s with isReady := true, readyEvents := s.readyEvents + 1, intervalActive := false }
      else s
    if elapsed ≥ 10000 then
      let s2 :=
        if s1.isReady = false then { s1 with failedEvents := s1.failedEvents + 1 } else s1
      { s2 with intervalActive := false }
    else s1
  else s

/-- Run the interval for a number of ticks; obs and elapsed give what the
callback observes at tick k (ticks are numbered from one). -/
def runReady (o : Nat → ReadyObs) (elapsed : Nat → Nat) : Nat → ReadySt
  | 0 => readyInit
  | k + 1 => readyTick (o (k + 1)) (elapsed (k + 1)) (runReady o elapsed k)

/-! ## Message transport send and receive (claims C8 and C9) -/

/-- Code units of the literal open, the RTCDataChannel readyState that
permits sending. -/
def openLit : JStr := [111, 112, 101, 110]

/-- The slice of RTCDataChannel state send inspects. -/
structure DataChannelSt where
  readyState : JStr

/-- The slice of the Peer record send inspects. -/
structure PeerSt where
  id : JStr
  dataChannel : Option DataChannelSt

/-- The file part of a Message record. -/
structure MsgFile where
  name : JStr
  ftype : JStr
  size : Int
  data : Option JStr
  url : Option JStr

/-- A Message record of the WebRTC manager transport. -/
structure MsgRec where
  id : JStr
  senderId : JStr
  senderName : JStr
  timestamp : Int
  text : Option JStr
  file : Option MsgFile

/-- The guard of WebRTCManager.send: a peer exists, it has a data
channel, and the channel readyState is open. -/
def channelIsOpen (peer : Option PeerSt) : Bool :=
  match peer with
  | none => false
  | some p =>
      match p.dataChannel with
      | none => false
      | some dc => decide (dc.readyState = openLit)

/-- Model of the WebRTCManager private helper arrayBufferToBase64: the
loop builds a binary string whose units are the bytes, then btoa encodes
it; Uint8Array entries are always below 256, so the result is total. -/
def arrayBufferToBase64 (bytes : JStr) : JStr := btoaChunks bytes

/-- Model of the WebRTCManager private helper base64ToArrayBuffer: atob,
then charCodeAt of every unit, which is the identity on the decoded
units; none models the atob throw on malformed base64. -/
def base64ToArrayBuffer (b64 : JStr) : Option JStr := atob b64

/-- Model of WebRTCManager.send.  Returns null (none) when the channel is
not open.  For text content it builds and sends a text message; for file
content the FileReader result (none on a reader error, which resolves
null) is base64 embedded in the file data field of the message.  The
truthiness test on content.text means a present empty text falls through
to the file branch. -/
def webrtcManagerSend (peer : Option PeerSt) (localUserId localUserName newId : JStr)
    (now : Int) (text : Option JStr) (file : Option (JStr × JStr × Int))
    (fileBytes : Option JStr) : Option MsgRec :=
  if channelIsOpen peer = false then none
  else
    match (match text with
           | some t => if t ≠ [] then some t else none
           | none => none) with
    | some t => some ⟨newId, localUserId, localUserName, now, some t, none⟩
    | none =>
        match file with
        | some (fname, ftype, fsize) =>
            match fileBytes with
            | some bytes =>
                some ⟨newId, localUserId, localUserName, now, none,
                      some ⟨fname, ftype, fsize, some (arrayBufferToBase64 bytes), none⟩⟩
            | none => none
        | none => none

/-- Model of TrysteroManager.send: returns null (none) when the room or
the sendMessage action is absent; otherwise builds the message, text
verbatim or file with a local blob url carrying the bytes. -/
def trysteroManagerSend (hasRoom hasSendMessage hasSendFile : Bool)
    (userId userName newId : JStr) (now : Int) (text : Option JStr)
    (file : Option (JStr × JStr × Int)) (fileBytes : Option JStr) : Option MsgRec :=
  if hasRoom = false ∨ hasSendMessage = false then none
  else
    match (match text with
           | some t => if t ≠ [] then some t else none
           | none => none) with
    | some t => some ⟨newId, userId, userName, now, some t, none⟩
    | none =>
        match file with
        | some (fname, ftype, fsize) =>
            if hasSendFile then
              match fileBytes with
              | some bytes =>
                  some ⟨newId, userId, userName, now, none,
                        some ⟨fname, ftype, fsize, none, some (arrayBufferToBase64 bytes)⟩⟩
              | none => none
            else none
        | none => none

/-- Code units of the JSON key id. -/
def idKey : JStr := [105, 100]

/-- Code units of the JSON key senderId. -/
def senderIdKey : JStr := [115, 101, 110, 100, 101, 114, 73, 100]

/-- Code units of the JSON key senderName. -/
def senderNameKey : JStr := [115, 101, 110, 100, 101, 114, 78, 97, 109, 101]

/-- Code units of the JSON key file. -/
def fileKey : JStr := [102, 105, 108, 101]

/-- Code units of the JSON key name. -/
def nameKey : JStr := [110, 97, 109, 101]

/-- Code units of the JSON key size. -/
def sizeKey : JStr := [115, 105, 122, 101]

/-- Code units of the JSON key data. -/
def dataKey : JStr := [100, 97, 116, 97]

/-- Code units of the JSON key url. -/
def urlKey : JStr := [117, 114, 108]

/-- JSON.stringify output for a file message as WebRTCManager.send sends
it over the data channel: id, senderId, senderName, timestamp, then the
file object with name, type, size and base64 data. -/
def fileMessageUnits (mid sid sname : JStr) (ts : Int) (fname ftype : JStr)
    (fsize : Int) (b64 : JStr) : JStr :=
  [123] ++ keyJ idKey ++ strJ mid
    ++ [44] ++ keyJ senderIdKey ++ strJ sid
    ++ [44] ++ keyJ senderNameKey ++ strJ sname
    ++ [44] ++ keyJ tsKey ++ intUnits ts
    ++ [44] ++ keyJ fileKey ++ [123] ++ keyJ nameKey ++ strJ fname
    ++ [44] ++ keyJ tyKey ++ strJ ftype
    ++ [44] ++ keyJ sizeKey ++ intUnits fsize
    ++ [44] ++ keyJ dataKey ++ strJ b64 ++ [125] ++ [125]

/-- A data channel frame: a string or an ArrayBuffer. -/
inductive WireData where
  | str (s : JStr)
  | buf (b : JStr)

/-- Model of the onmessage handler WebRTCManager.setupDataChannel
installs.  The string branch runs JSON.parse on the frame and hands the
parsed message to onMessage as is: it performs no file decoding, attaches
no url and strips no data field.  The base64 decoding and object-url
logic sits only in the ArrayBuffer branch, where JSON.parse is applied to
a buffer, which stringifies it and throws, so that branch never delivers
a message (none). -/
def onDataChannelMessage : WireData → Option Json
  | WireData.str s => parseJson s
  | WireData.buf _ => none

/-! ## Concrete sample values used by witnesses and counterexamples -/

/-- A concrete offer envelope: user u1, nickname Nick, session s1,
description type offer, sdp v=0, a realistic epoch timestamp. -/
def sampleEnvelope : Envelope :=
  ⟨EnvKind.offer, ⟨[117, 49], [78, 105, 99, 107]⟩, [115, 49],
   ⟨offerLit, [118, 61, 48]⟩, 1700000000000⟩

/-- A concrete answer envelope from user u2 for session s1. -/
def sampleAnswer : Envelope :=
  ⟨EnvKind.answer, ⟨[117, 50], [66, 111, 98]⟩, [115, 49],
   ⟨answerLit, [118, 61, 48]⟩, 1700000000000⟩

/-- An offer whose nickname contains code unit 256, outside the range
btoa accepts. -/
def badEnvelope : Envelope :=
  ⟨EnvKind.offer, ⟨[117, 49], [256]⟩, [115, 49], ⟨offerLit, [118]⟩, 0⟩

/-- An offer 301000 milliseconds older than the reference time
1700000300000. -/
def staleEnvelope : Envelope :=
  ⟨EnvKind.offer, ⟨[117, 49], [78]⟩, [115, 50], ⟨offerLit, [118]⟩, 1699999999000⟩

/-- An offer 299000 milliseconds older than the reference time
1700000300000. -/
def freshEnvelope : Envelope :=
  ⟨EnvKind.offer, ⟨[117, 49], [78]⟩, [115, 51], ⟨offerLit, [118]⟩, 1700000001000⟩

/-- The empty signaling state. -/
def emptySigState : SigState := ⟨[], []⟩

/-- Validity of the store precondition an otherwise valid envelope needs:
an offer requires its sessionId not to be already stored, an answer
requires a pending offer under its sessionId. -/
def storeOk (st : SigState) (e : Envelope) : Prop :=
  match e.kind with
  | EnvKind.offer =>
      mapHas st.pendingOffers (SessKey.prim (PrimKey.kstr e.sessionId)) = false
  | EnvKind.answer =>
      (mapGet st.pendingOffers (SessKey.prim (PrimKey.kstr e.sessionId))).isSome = true

/-- The connection string of the stale offer. -/
def sampleStaleWire : JStr := btoaChunks (envUnits staleEnvelope)

/-- The connection string of the fresh offer. -/
def sampleFreshWire : JStr := btoaChunks (envUnits freshEnvelope)

/-- The connection string of the sample offer. -/
def sampleWire : JStr := btoaChunks (envUnits sampleEnvelope)

/-- The connection string of the sample answer. -/
def sampleAnswerWire : JStr := btoaChunks (envUnits sampleAnswer)

/-! ## Base64 lemmas -/

theorem b64val_b64char : ∀ n < 64, b64val (b64char n) = some n := by decide

theorem b64char_ne_61 (n : Nat) : b64char n ≠ 61 := by
  unfold b64char; split_ifs <;> omega

theorem isTrimWs_b64char (n : Nat) : isTrimWs (b64char n) = false := by
  unfold b64char isTrimWs; split_ifs <;> simp <;> omega

theorem btoaChunks_not_ws : ∀ (x : JStr), ∀ c ∈ btoaChunks x, isTrimWs c = false
  | [] => by simp [btoaChunks]
  | [a] => by
      intro c hc
      simp only [btoaChunks, List.mem_cons, List.not_mem_nil, or_false] at hc
      rcases hc with hc | hc | hc | hc <;> subst hc <;>
        first
          | exact isTrimWs_b64char _
          | rfl
  | [a, b] => by
      intro c hc
      simp only [btoaChunks, List.mem_cons, List.not_mem_nil, or_false] at hc
      rcases hc with hc | hc | hc | hc <;> subst hc <;>
        first
          | exact isTrimWs_b64char _
          | rfl
  | a :: b :: c :: rest => by
      intro d hd
      simp only [btoaChunks, List.mem_cons] at hd
      rcases hd with hd | hd | hd | hd | hd
      · subst hd; exact isTrimWs_b64char _
      · subst hd; exact isTrimWs_b64char _
      · subst hd; exact isTrimWs_b64char _
      · subst hd; exact isTrimWs_b64char _
      · exact btoaChunks_not_ws rest d hd

theorem filter_btoaChunks (x : JStr) :
    (btoaChunks x).filter (fun u => !(isTrimWs u)) = btoaChunks x := by
  rw [List.filter_eq_self]
  intro c hc
  simp [btoaChunks_not_ws x c hc]

theorem atobCore_btoaChunks : ∀ (x : JStr), (∀ u ∈ x, u < 256) →
    atobCore (btoaChunks x) = some x
  | [] => fun _ => rfl
  | [a] => by
      intro h
      have ha : a < 256 := h a (by simp)
      show atobCore [b64char (a / 4), b64char (a % 4 * 16), 61, 61] = some [a]
      rw [show atobCore [b64char (a / 4), b64char (a % 4 * 16), 61, 61]
            = (do
                let v1 ← b64val (b64char (a / 4))
                let v2 ← b64val (b64char (a % 4 * 16))
                pure [v1 * 4 + v2 / 16]) from by simp [atobCore]]
      rw [b64val_b64char _ (by omega), b64val_b64char _ (by omega)]
      simp
      omega
  | [a, b] => by
      intro h
      have ha : a < 256 := h a (by simp)
      have hb : b < 256 := h b (by simp)
      show atobCore [b64char (a / 4), b64char (a % 4 * 16 + b / 16),
              b64char (b % 16 * 4), 61] = some [a, b]
      rw [show atobCore [b64char (a / 4), b64char (a % 4 * 16 + b / 16),
              b64char (b % 16 * 4), 61]
            = (do
                let v1 ← b64val (b64char (a / 4))
                let v2 ← b64val (b64char (a % 4 * 16 + b / 16))
                let v3 ← b64val (b64char (b % 16 * 4))
                pure [v1 * 4 + v2 / 16, v2 % 16 * 16 + v3 / 4]) from by
              simp [atobCore, b64char_ne_61]]
      rw [b64val_b64char _ (by omega), b64val_b64char _ (by omega),
          b64val_b64char _ (by omega)]
      simp
      omega
  | a :: b :: c :: rest => by
      intro h
      have ha : a < 256 := h a (by simp)
      have hb : b < 256 := h b (by simp)
      have hc : c < 256 := h c (by simp)
      have ih := atobCore_btoaChunks rest (fun u hu => h u (by simp [hu]))
      show atobCore (b64char (a / 4) :: b64char (a % 4 * 16 + b / 16)
              :: b64char (b % 16 * 4 + c / 64) :: b64char (c % 64)
              :: btoaChunks rest) = some (a :: b :: c :: rest)
      rw [show atobCore (b64char (a / 4) :: b64char (a % 4 * 16 + b / 16)
              :: b64char (b % 16 * 4 + c / 64) :: b64char (c % 64)
              :: btoaChunks rest)
            = (do
                let v1 ← b64val (b64char (a / 4))
                let v2 ← b64val (b64char (a % 4 * 16 + b / 16))
                let v3 ← b64val (b64char (b % 16 * 4 + c / 64))
                let v4 ← b64val (b64char (c % 64))
                let tail ← atobCore (btoaChunks rest)
                pure ((v1 * 4 + v2 / 16) :: (v2 % 16 * 16 + v3 / 4)
                  :: (v3 % 4 * 64 + v4) :: tail)) from by
              simp [atobCore, b64char_ne_61]]
      rw [b64val_b64char _ (by omega), b64val_b64char _ (by omega),
          b64val_b64char _ (by omega), b64val_b64char _ (by omega), ih]
      simp
      refine ⟨by omega, by omega, by omega⟩

theorem atob_btoaChunks (x : JStr) (h : ∀ u ∈ x, u < 256) :
    atob (btoaChunks x) = some x := by
  unfold atob
  rw [filter_btoaChunks]
  exact atobCore_btoaChunks x h

theorem dropWhile_eq_self_of (p : Nat → Bool) (s : JStr)
    (h : ∀ u ∈ s, p u = false) : s.dropWhile p = s := by
  cases s with
  | nil => rfl
  | cons u rest => simp [List.dropWhile, h u (by simp)]

theorem trimU_eq_self (s : JStr) (h : ∀ u ∈ s, isTrimWs u = false) :
    trimU s = s := by
  unfold trimU
  rw [dropWhile_eq_self_of _ _ h]
  rw [dropWhile_eq_self_of _ _ (fun u hu => h u (List.mem_reverse.mp hu))]
  exact List.reverse_reverse s

/-! ## Decimal digit lemmas -/

theorem natU_digits (f : Nat) : ∀ n, n < f → ∀ d ∈ natU f n, 48 ≤ d ∧ d ≤ 57 := by
  induction f with
  | zero => intro n h; omega
  | succ f ih =>
      intro n h d hd
      by_cases h10 : n < 10
      · simp [natU, h10] at hd; omega
      · simp [natU, h10] at hd
        rcases hd with hd | hd
        · exact ih (n / 10) (by omega) d hd
        · omega

theorem natU_ne_nil (f n : Nat) (h : n < f) : natU f n ≠ [] := by
  cases f with
  | zero => omega
  | succ f =>
      simp only [natU]
      split_ifs <;> simp

theorem digitsVal_append_singleton (xs : JStr) (d : Nat) :
    digitsVal (xs ++ [d]) = digitsVal xs * 10 + (d - 48) := by
  simp [digitsVal, List.foldl_append]

theorem digitsVal_natU (f : Nat) : ∀ n, n < f → digitsVal (natU f n) = n := by
  induction f with
  | zero => intro n h; omega
  | succ f ih =>
      intro n h
      by_cases h10 : n < 10
      · simp [natU, h10, digitsVal]
      · rw [show natU (f + 1) n = natU f (n / 10) ++ [48 + n % 10] from by
              simp [natU, h10]]
        rw [digitsVal_append_singleton, ih (n / 10) (by omega)]
        omega

theorem natUnits_digits (n : Nat) : ∀ d ∈ natUnits n, 48 ≤ d ∧ d ≤ 57 :=
  natU_digits (n + 1) n (by omega)

theorem natUnits_ne_nil (n : Nat) : natUnits n ≠ [] :=
  natU_ne_nil (n + 1) n (by omega)

theorem digitsVal_natUnits (n : Nat) : digitsVal (natUnits n) = n :=
  digitsVal_natU (n + 1) n (by omega)

theorem hexVal_hexDigitChar : ∀ m < 16, hexVal (hexDigitChar m) = some m := by decide

/-- Splitting takeWhile and dropWhile over a run of units satisfying the
predicate followed by a tail whose head fails it. -/
theorem takeWhile_dropWhile_append (p : Nat → Bool) (xs tail : JStr)
    (hxs : ∀ d ∈ xs, p d = true)
    (htail : ∀ u, tail.head? = some u → p u = false) :
    (xs ++ tail).takeWhile p = xs ∧ (xs ++ tail).dropWhile p = tail := by
  induction xs with
  | nil =>
      cases tail with
      | nil => simp
      | cons u rest => simp [List.takeWhile, List.dropWhile, htail u rfl]
  | cons d rest ih =>
      have hd := hxs d (by simp)
      have ih2 := ih (fun x hx => hxs x (by simp [hx]))
      simp [List.takeWhile, List.dropWhile, hd, ih2.1, ih2.2]

theorem parseDigits_natUnits (n : Nat) (tail : JStr) (htail : headNotDigit tail) :
    parseDigits (natUnits n ++ tail) = some (n, tail) := by
  have hsplit := takeWhile_dropWhile_append isDigitU (natUnits n) tail
    (fun d hd => by
      have := natUnits_digits n d hd
      simp [isDigitU]; omega)
    htail
  unfold parseDigits
  rw [hsplit.1, hsplit.2]
  simp [natUnits_ne_nil n, digitsVal_natUnits n]

/-! ## Escaping lemmas -/

theorem parseStrBody_escape (s : JStr) : ∀ (f : Nat) (tail : JStr),
    (escapeUnits s).length < f →
    parseStrBody f (escapeUnits s ++ 34 :: tail) = some (s, tail) := by
  induction s with
  | nil =>
      intro f tail hf
      cases f with
      | zero => simp [escapeUnits] at hf
      | succ f => simp [escapeUnits, parseStrBody]
  | cons u s ih =>
      intro f tail hf
      have hlen : (escapeChar u).length + (escapeUnits s).length < f := by
        simpa [escapeUnits, List.length_append] using hf
      rw [show escapeUnits (u :: s) ++ 34 :: tail
            = escapeChar u ++ (escapeUnits s ++ 34 :: tail) from by
            simp [escapeUnits, List.append_assoc]]
      cases f with
      | zero => omega
      | succ f1 =>
          by_cases h1 : u = 34
          · subst h1
            have hrec := ih f1 tail (by simp [escapeChar] at hlen; omega)
            simp [escapeChar, parseStrBody, hrec]
          · by_cases h2 : u = 92
            · subst h2
              have hrec := ih f1 tail (by simp [escapeChar] at hlen; omega)
              simp [escapeChar, parseStrBody, hrec]
            · by_cases h3 : u = 8
              · subst h3
                have hrec := ih f1 tail (by simp [escapeChar] at hlen; omega)
                simp [escapeChar, parseStrBody, hrec]
              · by_cases h4 : u = 9
                · subst h4
                  have hrec := ih f1 tail (by simp [escapeChar] at hlen; omega)
                  simp [escapeChar, parseStrBody, hrec]
                · by_cases h5 : u = 10
                  · subst h5
                    have hrec := ih f1 tail (by simp [escapeChar] at hlen; omega)
                    simp [escapeChar, parseStrBody, hrec]
                  · by_cases h6 : u = 12
                    · subst h6
                      have hrec := ih f1 tail (by simp [escapeChar] at hlen; omega)
                      simp [escapeChar, parseStrBody, hrec]
                    · by_cases h7 : u = 13
                      · subst h7
                        have hrec := ih f1 tail (by simp [escapeChar] at hlen; omega)
                        simp [escapeChar, parseStrBody, hrec]
                      · by_cases h8 : u < 32
                        · have hesc : escapeChar u
                              = [92, 117, 48, 48, hexDigitChar (u / 16),
                                 hexDigitChar (u % 16)] := by
                            simp [escapeChar, h1, h2, h3, h4, h5, h6, h7, h8]
                          rw [hesc] at hlen
                          have hx1 := hexVal_hexDigitChar (u / 16) (by omega)
                          have hx2 := hexVal_hexDigitChar (u % 16) (by omega)
                          have hrec := ih f1 tail (by
                            simp only [List.length_cons, List.length_nil] at hlen
                            omega)
                          rw [hesc]
                          have h48 : hexVal 48 = some 0 := by simp [hexVal]
                          simp [parseStrBody, h48, hx1, hx2, hrec]
                          omega
                        · have hesc : escapeChar u = [u] := by
                            simp [escapeChar, h1, h2, h3, h4, h5, h6, h7, h8]
                          rw [hesc] at hlen
                          have hrec := ih f1 tail (by
                            simp only [List.length_cons, List.length_nil] at hlen
                            omega)
                          rw [hesc]
                          simp [parseStrBody, h1, h2, hrec]

theorem mem_escapeChar_bound {u c : Nat} (hu : u < 256) (hc : c ∈ escapeChar u) :
    c < 256 := by
  have hhex : ∀ m, m < 16 → hexDigitChar m < 256 := by
    intro m hm; simp only [hexDigitChar]; split_ifs <;> omega
  unfold escapeChar at hc
  split_ifs at hc with h1 h2 h3 h4 h5 h6 h7 h8
  all_goals simp only [List.mem_cons, List.not_mem_nil, or_false] at hc
  all_goals (repeat' rcases hc with rfl | hc)
  all_goals
    first
      | omega
      | exact hhex _ (by omega)

theorem latin1_nil : latin1 [] := by simp [latin1]

theorem latin1_cons {u : Nat} {s : JStr} : latin1 (u :: s) ↔ u < 256 ∧ latin1 s := by
  simp [latin1]

theorem latin1_append {a b : JStr} : latin1 (a ++ b) ↔ latin1 a ∧ latin1 b := by
  simp [latin1]
  constructor
  · intro h; exact ⟨fun u hu => h u (Or.inl hu), fun u hu => h u (Or.inr hu)⟩
  · intro h u hu; rcases hu with hu | hu
    · exact h.1 u hu
    · exact h.2 u hu

theorem latin1_escapeUnits (s : JStr) (h : latin1 s) : latin1 (escapeUnits s) := by
  induction s with
  | nil => exact latin1_nil
  | cons u rest ih =>
      rw [show escapeUnits (u :: rest) = escapeChar u ++ escapeUnits rest from rfl]
      rw [latin1_append]
      rcases latin1_cons.mp h with ⟨hu, hrest⟩
      exact ⟨fun c hc => mem_escapeChar_bound hu hc, ih hrest⟩

theorem intUnits_latin1 (n : Int) : latin1 (intUnits n) := by
  cases n with
  | ofNat m =>
      intro c hc
      have := natUnits_digits m c hc
      omega
  | negSucc m =>
      intro c hc
      rcases List.mem_cons.mp hc with rfl | hc
      · omega
      · have := natUnits_digits (m + 1) c hc
        omega

/-! ## Parser step lemmas -/

theorem parseP_str (f : Nat) (s tail : JStr) :
    parseP (f + 1) PMode.value (34 :: (escapeUnits s ++ 34 :: tail))
      = some (PRes.v (Json.str s), tail) := by
  have hsb := parseStrBody_escape s ((escapeUnits s ++ 34 :: tail).length + 1) tail
    (by simp [List.length_append]; omega)
  simp only [List.length_append, List.length_cons] at hsb
  simp [parseP, skipWs, List.dropWhile, isJsonWs, hsb]

theorem parseP_num (f : Nat) (n : Int) (tail : JStr) (ht : headNotDigit tail) :
    parseP (f + 1) PMode.value (intUnits n ++ tail)
      = some (PRes.v (Json.num n), tail) := by
  cases n with
  | ofNat m =>
      obtain ⟨d, ds, hcons⟩ := List.exists_cons_of_ne_nil (natUnits_ne_nil m)
      have hd : 48 ≤ d ∧ d ≤ 57 := natUnits_digits m d (by rw [hcons]; simp)
      have hpd : parseDigits (d :: (ds ++ tail)) = some (m, tail) := by
        rw [show d :: (ds ++ tail) = natUnits m ++ tail from by rw [hcons]; simp]
        exact parseDigits_natUnits m tail ht
      rw [show intUnits (Int.ofNat m) ++ tail = d :: (ds ++ tail) from by
            simp only [intUnits]; rw [hcons]; simp]
      simp [parseP, skipWs, List.dropWhile,
            show isJsonWs d = false from by simp [isJsonWs]; omega,
            show ¬(d = 34) from by omega, show ¬(d = 123) from by omega,
            show ¬(d = 91) from by omega, show ¬(d = 116) from by omega,
            show ¬(d = 102) from by omega, show ¬(d = 110) from by omega,
            show ¬(d = 45) from by omega,
            show isDigitU d = true from by simp [isDigitU]; omega, hpd]
  | negSucc m =>
      have hpd := parseDigits_natUnits (m + 1) tail ht
      rw [show intUnits (Int.negSucc m) ++ tail
            = 45 :: (natUnits (m + 1) ++ tail) from by simp [intUnits]]
      simp [parseP, skipWs, List.dropWhile, isJsonWs, hpd, Int.negSucc_eq]

theorem parseP_value_obj_step (f : Nat) (X : JStr) :
    parseP (f + 2) PMode.value (123 :: X)
      = match parseP (f + 1) PMode.objFields X with
        | some (PRes.fs l, r) => some (PRes.v (Json.obj l), r)
        | _ => none := rfl

theorem parseP_objFields_step (f : Nat) (Y : JStr) :
    parseP (f + 1) PMode.objFields (34 :: Y)
      = match parseStrBody (Y.length + 1) Y with
        | none => none
        | some (k, r1) =>
            match skipWs r1 with
            | 58 :: r2 =>
                (match parseP f PMode.value r2 with
                 | some (PRes.v j, r3) =>
                     (match skipWs r3 with
                      | 44 :: r4 =>
                          (match parseP f PMode.objFields r4 with
                           | some (PRes.fs l, r5) => some (PRes.fs ((k, j) :: l), r5)
                           | _ => none)
                      | 125 :: r4 => some (PRes.fs [(k, j)], r4)
                      | _ => none)
                 | _ => none)
            | _ => none := rfl

theorem parseP_obj (f : Nat) (X : JStr) (l : List (JStr × Json)) (tail : JStr)
    (h : parseP (f + 1) PMode.objFields X = some (PRes.fs l, tail)) :
    parseP (f + 2) PMode.value (123 :: X) = some (PRes.v (Json.obj l), tail) := by
  rw [parseP_value_obj_step, h]

theorem parseP_field_cons (f : Nat) (k X : JStr) (j : Json) (rest tail : JStr)
    (l : List (JStr × Json)) (hk : escapeUnits k = k)
    (hv : parseP (f + 1) PMode.value X = some (PRes.v j, 44 :: rest))
    (hrest : parseP (f + 1) PMode.objFields rest = some (PRes.fs l, tail)) :
    parseP (f + 2) PMode.objFields (34 :: (k ++ 34 :: 58 :: X))
      = some (PRes.fs ((k, j) :: l), tail) := by
  have hkp := parseStrBody_escape k ((k ++ 34 :: 58 :: X).length + 1) (58 :: X)
    (by rw [hk]; simp [List.length_append]; omega)
  rw [hk] at hkp
  rw [parseP_objFields_step, hkp]
  simp [skipWs, List.dropWhile, isJsonWs, hv, hrest]

theorem parseP_field_last (f : Nat) (k X : JStr) (j : Json) (tail : JStr)
    (hk : escapeUnits k = k)
    (hv : parseP (f + 1) PMode.value X = some (PRes.v j, 125 :: tail)) :
    parseP (f + 2) PMode.objFields (34 :: (k ++ 34 :: 58 :: X))
      = some (PRes.fs [(k, j)], tail) := by
  have hkp := parseStrBody_escape k ((k ++ 34 :: 58 :: X).length + 1) (58 :: X)
    (by rw [hk]; simp [List.length_append]; omega)
  rw [hk] at hkp
  rw [parseP_objFields_step, hkp]
  simp [skipWs, List.dropWhile, isJsonWs, hv]

/-! ## Round trip of the envelope serialization through the JSON parser -/

theorem parseP_envUnits (e : Envelope) (g : Nat) :
    parseP (g + 9) PMode.value (envUnits e) = some (PRes.v (envelopeToJson e), []) := by
  obtain ⟨k, ⟨uid, nick⟩, sid, ⟨dt, sdp⟩, ts⟩ := e
  have hpk : escapeUnits (payloadKey k) = payloadKey k := by cases k <;> rfl
  have hnd : headNotDigit (125 :: ([] : JStr)) := by
    intro u hu; injection hu with h; subst h; rfl
  have h5v : ∀ f, parseP (f + 1) PMode.value (intUnits ts ++ 125 :: [])
      = some (PRes.v (Json.num ts), 125 :: []) :=
    fun f => parseP_num f ts (125 :: []) hnd
  have h5 : ∀ f, parseP (f + 2) PMode.objFields (fieldU tsKey (intUnits ts ++ 125 :: []))
      = some (PRes.fs [(tsKey, Json.num ts)], []) :=
    fun f => parseP_field_last f tsKey (intUnits ts ++ 125 :: []) (Json.num ts) [] rfl (h5v f)
  have hC2 : ∀ f, parseP (f + 2) PMode.objFields (fieldU sdpKey (strV sdp (125 :: 44 :: fieldU tsKey (intUnits ts ++ 125 :: []))))
      = some (PRes.fs [(sdpKey, Json.str sdp)], 44 :: fieldU tsKey (intUnits ts ++ 125 :: [])) :=
    fun f => parseP_field_last f sdpKey (strV sdp (125 :: 44 :: fieldU tsKey (intUnits ts ++ 125 :: [])))
      (Json.str sdp) (44 :: fieldU tsKey (intUnits ts ++ 125 :: [])) rfl (parseP_str f sdp (125 :: 44 :: fieldU tsKey (intUnits ts ++ 125 :: [])))
  have hC1 : ∀ f, parseP (f + 3) PMode.objFields (fieldU tyKey (strV dt (44 :: fieldU sdpKey (strV sdp (125 :: 44 :: fieldU tsKey (intUnits ts ++ 125 :: []))))))
      = some (PRes.fs [(tyKey, Json.str dt), (sdpKey, Json.str sdp)], 44 :: fieldU tsKey (intUnits ts ++ 125 :: [])) :=
    fun f => parseP_field_cons (f + 1) tyKey (strV dt (44 :: fieldU sdpKey (strV sdp (125 :: 44 :: fieldU tsKey (intUnits ts ++ 125 :: [])))))
      (Json.str dt) (fieldU sdpKey (strV sdp (125 :: 44 :: fieldU tsKey (intUnits ts ++ 125 :: [])))) (44 :: fieldU tsKey (intUnits ts ++ 125 :: [])) [(sdpKey, Json.str sdp)] rfl
      (parseP_str (f + 1) dt (44 :: fieldU sdpKey (strV sdp (125 :: 44 :: fieldU tsKey (intUnits ts ++ 125 :: []))))) (hC2 f)
  have hV4 : ∀ f, parseP (f + 4) PMode.value (objV (fieldU tyKey (strV dt (44 :: fieldU sdpKey (strV sdp (125 :: 44 :: fieldU tsKey (intUnits ts ++ 125 :: [])))))))
      = some (PRes.v (Json.obj [(tyKey, Json.str dt), (sdpKey, Json.str sdp)]), 44 :: fieldU tsKey (intUnits ts ++ 125 :: [])) :=
    fun f => parseP_obj (f + 2) (fieldU tyKey (strV dt (44 :: fieldU sdpKey (strV sdp (125 :: 44 :: fieldU tsKey (intUnits ts ++ 125 :: [])))))) _ _ (hC1 f)
  have hA4 : ∀ f, parseP (f + 5) PMode.objFields (fieldU (payloadKey k) (objV (fieldU tyKey (strV dt (44 :: fieldU sdpKey (strV sdp (125 :: 44 :: fieldU tsKey (intUnits ts ++ 125 :: []))))))))
      = some (PRes.fs [(payloadKey k, Json.obj [(tyKey, Json.str dt), (sdpKey, Json.str sdp)]), (tsKey, Json.num ts)], []) :=
    fun f => parseP_field_cons (f + 3) (payloadKey k) (objV (fieldU tyKey (strV dt (44 :: fieldU sdpKey (strV sdp (125 :: 44 :: fieldU tsKey (intUnits ts ++ 125 :: [])))))))
      (Json.obj [(tyKey, Json.str dt), (sdpKey, Json.str sdp)]) (fieldU tsKey (intUnits ts ++ 125 :: [])) [] [(tsKey, Json.num ts)] hpk (hV4 f) (h5 (f + 2))
  have hA3 : ∀ f, parseP (f + 6) PMode.objFields (fieldU sessionIdKey (strV sid (44 :: fieldU (payloadKey k) (objV (fieldU tyKey (strV dt (44 :: fieldU sdpKey (strV sdp (125 :: 44 :: fieldU tsKey (intUnits ts ++ 125 :: []))))))))))
      = some (PRes.fs [(sessionIdKey, Json.str sid), (payloadKey k, Json.obj [(tyKey, Json.str dt), (sdpKey, Json.str sdp)]),
          (tsKey, Json.num ts)], []) :=
    fun f => parseP_field_cons (f + 4) sessionIdKey (strV sid (44 :: fieldU (payloadKey k) (objV (fieldU tyKey (strV dt (44 :: fieldU sdpKey (strV sdp (125 :: 44 :: fieldU tsKey (intUnits ts ++ 125 :: [])))))))))
      (Json.str sid) (fieldU (payloadKey k) (objV (fieldU tyKey (strV dt (44 :: fieldU sdpKey (strV sdp (125 :: 44 :: fieldU tsKey (intUnits ts ++ 125 :: [])))))))) [] [(payloadKey k, Json.obj [(tyKey, Json.str dt), (sdpKey, Json.str sdp)]), (tsKey, Json.num ts)] rfl
      (parseP_str (f + 4) sid (44 :: fieldU (payloadKey k) (objV (fieldU tyKey (strV dt (44 :: fieldU sdpKey (strV sdp (125 :: 44 :: fieldU tsKey (intUnits ts ++ 125 :: []))))))))) (hA4 f)
  have hB2 : ∀ f, parseP (f + 2) PMode.objFields (fieldU nicknameKey (strV nick (125 :: 44 :: fieldU sessionIdKey (strV sid (44 :: fieldU (payloadKey k) (objV (fieldU tyKey (strV dt (44 :: fieldU sdpKey (strV sdp (125 :: 44 :: fieldU tsKey (intUnits ts ++ 125 :: []))))))))))))
      = some (PRes.fs [(nicknameKey, Json.str nick)], 44 :: fieldU sessionIdKey (strV sid (44 :: fieldU (payloadKey k) (objV (fieldU tyKey (strV dt (44 :: fieldU sdpKey (strV sdp (125 :: 44 :: fieldU tsKey (intUnits ts ++ 125 :: [])))))))))) :=
    fun f => parseP_field_last f nicknameKey (strV nick (125 :: 44 :: fieldU sessionIdKey (strV sid (44 :: fieldU (payloadKey k) (objV (fieldU tyKey (strV dt (44 :: fieldU sdpKey (strV sdp (125 :: 44 :: fieldU tsKey (intUnits ts ++ 125 :: [])))))))))))
      (Json.str nick) (44 :: fieldU sessionIdKey (strV sid (44 :: fieldU (payloadKey k) (objV (fieldU tyKey (strV dt (44 :: fieldU sdpKey (strV sdp (125 :: 44 :: fieldU tsKey (intUnits ts ++ 125 :: [])))))))))) rfl (parseP_str f nick (125 :: 44 :: fieldU sessionIdKey (strV sid (44 :: fieldU (payloadKey k) (objV (fieldU tyKey (strV dt (44 :: fieldU sdpKey (strV sdp (125 :: 44 :: fieldU tsKey (intUnits ts ++ 125 :: [])))))))))))
  have hB1 : ∀ f, parseP (f + 3) PMode.objFields (fieldU userIdKey (strV uid (44 :: fieldU nicknameKey (strV nick (125 :: 44 :: fieldU sessionIdKey (strV sid (44 :: fieldU (payloadKey k) (objV (fieldU tyKey (strV dt (44 :: fieldU sdpKey (strV sdp (125 :: 44 :: fieldU tsKey (intUnits ts ++ 125 :: []))))))))))))))
      = some (PRes.fs [(userIdKey, Json.str uid), (nicknameKey, Json.str nick)],
          44 :: fieldU sessionIdKey (strV sid (44 :: fieldU (payloadKey k) (objV (fieldU tyKey (strV dt (44 :: fieldU sdpKey (strV sdp (125 :: 44 :: fieldU tsKey (intUnits ts ++ 125 :: [])))))))))) :=
    fun f => parseP_field_cons (f + 1) userIdKey (strV uid (44 :: fieldU nicknameKey (strV nick (125 :: 44 :: fieldU sessionIdKey (strV sid (44 :: fieldU (payloadKey k) (objV (fieldU tyKey (strV dt (44 :: fieldU sdpKey (strV sdp (125 :: 44 :: fieldU tsKey (intUnits ts ++ 125 :: [])))))))))))))
      (Json.str uid) (fieldU nicknameKey (strV nick (125 :: 44 :: fieldU sessionIdKey (strV sid (44 :: fieldU (payloadKey k) (objV (fieldU tyKey (strV dt (44 :: fieldU sdpKey (strV sdp (125 :: 44 :: fieldU tsKey (intUnits ts ++ 125 :: [])))))))))))) (44 :: fieldU sessionIdKey (strV sid (44 :: fieldU (payloadKey k) (objV (fieldU tyKey (strV dt (44 :: fieldU sdpKey (strV sdp (125 :: 44 :: fieldU tsKey (intUnits ts ++ 125 :: [])))))))))) [(nicknameKey, Json.str nick)] rfl
      (parseP_str (f + 1) uid (44 :: fieldU nicknameKey (strV nick (125 :: 44 :: fieldU sessionIdKey (strV sid (44 :: fieldU (payloadKey k) (objV (fieldU tyKey (strV dt (44 :: fieldU sdpKey (strV sdp (125 :: 44 :: fieldU tsKey (intUnits ts ++ 125 :: []))))))))))))) (hB2 f)
  have hV2 : ∀ f, parseP (f + 4) PMode.value (objV (fieldU userIdKey (strV uid (44 :: fieldU nicknameKey (strV nick (125 :: 44 :: fieldU sessionIdKey (strV sid (44 :: fieldU (payloadKey k) (objV (fieldU tyKey (strV dt (44 :: fieldU sdpKey (strV sdp (125 :: 44 :: fieldU tsKey (intUnits ts ++ 125 :: [])))))))))))))))
      = some (PRes.v (Json.obj [(userIdKey, Json.str uid), (nicknameKey, Json.str nick)]), 44 :: fieldU sessionIdKey (strV sid (44 :: fieldU (payloadKey k) (objV (fieldU tyKey (strV dt (44 :: fieldU sdpKey (strV sdp (125 :: 44 :: fieldU tsKey (intUnits ts ++ 125 :: [])))))))))) :=
    fun f => parseP_obj (f + 2) (fieldU userIdKey (strV uid (44 :: fieldU nicknameKey (strV nick (125 :: 44 :: fieldU sessionIdKey (strV sid (44 :: fieldU (payloadKey k) (objV (fieldU tyKey (strV dt (44 :: fieldU sdpKey (strV sdp (125 :: 44 :: fieldU tsKey (intUnits ts ++ 125 :: [])))))))))))))) _ _ (hB1 f)
  have hA2 : ∀ f, parseP (f + 7) PMode.objFields (fieldU fromKey (objV (fieldU userIdKey (strV uid (44 :: fieldU nicknameKey (strV nick (125 :: 44 :: fieldU sessionIdKey (strV sid (44 :: fieldU (payloadKey k) (objV (fieldU tyKey (strV dt (44 :: fieldU sdpKey (strV sdp (125 :: 44 :: fieldU tsKey (intUnits ts ++ 125 :: []))))))))))))))))
      = some (PRes.fs [(fromKey, Json.obj [(userIdKey, Json.str uid), (nicknameKey, Json.str nick)]), (sessionIdKey, Json.str sid),
          (payloadKey k, Json.obj [(tyKey, Json.str dt), (sdpKey, Json.str sdp)]), (tsKey, Json.num ts)], []) :=
    fun f => parseP_field_cons (f + 5) fromKey (objV (fieldU userIdKey (strV uid (44 :: fieldU nicknameKey (strV nick (125 :: 44 :: fieldU sessionIdKey (strV sid (44 :: fieldU (payloadKey k) (objV (fieldU tyKey (strV dt (44 :: fieldU sdpKey (strV sdp (125 :: 44 :: fieldU tsKey (intUnits ts ++ 125 :: [])))))))))))))))
      (Json.obj [(userIdKey, Json.str uid), (nicknameKey, Json.str nick)]) (fieldU sessionIdKey (strV sid (44 :: fieldU (payloadKey k) (objV (fieldU tyKey (strV dt (44 :: fieldU sdpKey (strV sdp (125 :: 44 :: fieldU tsKey (intUnits ts ++ 125 :: [])))))))))) []
      [(sessionIdKey, Json.str sid), (payloadKey k, Json.obj [(tyKey, Json.str dt), (sdpKey, Json.str sdp)]), (tsKey, Json.num ts)] rfl
      (hV2 (f + 2)) (hA3 f)
  have hA1 : ∀ f, parseP (f + 8) PMode.objFields (fieldU tyKey (strV (kindLit k) (44 :: fieldU fromKey (objV (fieldU userIdKey (strV uid (44 :: fieldU nicknameKey (strV nick (125 :: 44 :: fieldU sessionIdKey (strV sid (44 :: fieldU (payloadKey k) (objV (fieldU tyKey (strV dt (44 :: fieldU sdpKey (strV sdp (125 :: 44 :: fieldU tsKey (intUnits ts ++ 125 :: []))))))))))))))))))
      = some (PRes.fs [(tyKey, Json.str (kindLit k)), (fromKey, Json.obj [(userIdKey, Json.str uid), (nicknameKey, Json.str nick)]),
          (sessionIdKey, Json.str sid), (payloadKey k, Json.obj [(tyKey, Json.str dt), (sdpKey, Json.str sdp)]),
          (tsKey, Json.num ts)], []) :=
    fun f => parseP_field_cons (f + 6) tyKey (strV (kindLit k) (44 :: fieldU fromKey (objV (fieldU userIdKey (strV uid (44 :: fieldU nicknameKey (strV nick (125 :: 44 :: fieldU sessionIdKey (strV sid (44 :: fieldU (payloadKey k) (objV (fieldU tyKey (strV dt (44 :: fieldU sdpKey (strV sdp (125 :: 44 :: fieldU tsKey (intUnits ts ++ 125 :: [])))))))))))))))))
      (Json.str (kindLit k)) (fieldU fromKey (objV (fieldU userIdKey (strV uid (44 :: fieldU nicknameKey (strV nick (125 :: 44 :: fieldU sessionIdKey (strV sid (44 :: fieldU (payloadKey k) (objV (fieldU tyKey (strV dt (44 :: fieldU sdpKey (strV sdp (125 :: 44 :: fieldU tsKey (intUnits ts ++ 125 :: [])))))))))))))))) []
      [(fromKey, Json.obj [(userIdKey, Json.str uid), (nicknameKey, Json.str nick)]), (sessionIdKey, Json.str sid), (payloadKey k, Json.obj [(tyKey, Json.str dt), (sdpKey, Json.str sdp)]),
       (tsKey, Json.num ts)] rfl
      (parseP_str (f + 6) (kindLit k) (44 :: fieldU fromKey (objV (fieldU userIdKey (strV uid (44 :: fieldU nicknameKey (strV nick (125 :: 44 :: fieldU sessionIdKey (strV sid (44 :: fieldU (payloadKey k) (objV (fieldU tyKey (strV dt (44 :: fieldU sdpKey (strV sdp (125 :: 44 :: fieldU tsKey (intUnits ts ++ 125 :: []))))))))))))))))) (hA2 f)
  exact parseP_obj (g + 7) (fieldU tyKey (strV (kindLit k) (44 :: fieldU fromKey (objV (fieldU userIdKey (strV uid (44 :: fieldU nicknameKey (strV nick (125 :: 44 :: fieldU sessionIdKey (strV sid (44 :: fieldU (payloadKey k) (objV (fieldU tyKey (strV dt (44 :: fieldU sdpKey (strV sdp (125 :: 44 :: fieldU tsKey (intUnits ts ++ 125 :: [])))))))))))))))))) _ _ (hA1 g)

theorem envUnits_length (e : Envelope) : 9 ≤ (envUnits e).length := by
  obtain ⟨k, ⟨uid, nick⟩, sid, ⟨dt, sdp⟩, ts⟩ := e
  simp [envUnits, objV, fieldU, strV, List.length_append, List.length_cons,
        tyKey, fromKey, userIdKey, nicknameKey, sessionIdKey, sdpKey, tsKey]

theorem parseJson_envUnits (e : Envelope) :
    parseJson (envUnits e) = some (envelopeToJson e) := by
  have hlen := envUnits_length e
  obtain ⟨d, hd⟩ : ∃ d, (envUnits e).length + 1 = d + 9 :=
    ⟨(envUnits e).length - 8, by omega⟩
  unfold parseJson
  rw [hd, parseP_envUnits e d]
  rfl

theorem jsonToEnvelope_envelopeToJson (e : Envelope) :
    jsonToEnvelope (envelopeToJson e) = some e := by
  obtain ⟨k, ⟨uid, nick⟩, sid, ⟨dt, sdp⟩, ts⟩ := e
  cases k <;> rfl

theorem envUnits_latin1 (e : Envelope) (h : latin1Env e) : latin1 (envUnits e) := by
  obtain ⟨h1, h2, h3, h4, h5⟩ := h
  have e1 := latin1_escapeUnits _ h1
  have e2 := latin1_escapeUnits _ h2
  have e3 := latin1_escapeUnits _ h3
  have e4 := latin1_escapeUnits _ h4
  have e5 := latin1_escapeUnits _ h5
  have ek : latin1 (escapeUnits (kindLit e.kind)) := by
    cases e.kind <;> (unfold latin1; decide)
  have hpl : latin1 (payloadKey e.kind) := by
    cases e.kind <;> (unfold latin1; decide)
  have et : latin1 (intUnits e.timestamp) := intUnits_latin1 _
  simp [envUnits, objV, fieldU, strV, latin1_append, latin1_cons, latin1_nil,
        e1, e2, e3, e4, e5, ek, hpl, et,
        tyKey, fromKey, userIdKey, nicknameKey, sessionIdKey, sdpKey, tsKey]

/-- Claim C1, as stated, is false on the code: encoding is
JSON.stringify followed by btoa, and btoa throws on any code unit above
255, so an envelope whose nickname contains code unit 256 has no
connection string at all and the round trip cannot return it. -/
theorem c1_counterexample :
    ¬ ((encodeEnvelope badEnvelope).bind decodeEnvelope = some badEnvelope) := by
  intro h
  rw [show encodeEnvelope badEnvelope = none from rfl] at h
  exact Option.noConfusion h

/-- Claim C1 (amended): for every envelope all of whose string fields
consist of code units below 256 (the range btoa accepts), decoding the
connection string produced by encoding the envelope yields the envelope
exactly: base64 then JSON parsing of the serialized envelope recovers
every field. -/
theorem c1_roundtrip_latin1 (e : Envelope) (h : latin1Env e) :
    (encodeEnvelope e).bind decodeEnvelope = some e := by
  have hlat : ∀ u ∈ envUnits e, u < 256 := envUnits_latin1 e h
  have henc : encodeEnvelope e = some (btoaChunks (envUnits e)) := by
    unfold encodeEnvelope btoa
    rw [if_pos]
    rw [List.all_eq_true]
    intro u hu
    simpa using hlat u hu
  rw [henc]
  show decodeEnvelope (btoaChunks (envUnits e)) = some e
  unfold decodeEnvelope decodeToJson
  rw [trimU_eq_self _ (btoaChunks_not_ws _), atob_btoaChunks _ hlat]
  show (parseJson (envUnits e)).bind jsonToEnvelope = some e
  rw [parseJson_envUnits e]
  show jsonToEnvelope (envelopeToJson e) = some e
  exact jsonToEnvelope_envelopeToJson e

/-- Witness for c1_roundtrip_latin1 at the concrete sample offer. -/
theorem c1_roundtrip_latin1_witness :
    latin1Env sampleEnvelope ∧
      (encodeEnvelope sampleEnvelope).bind decodeEnvelope = some sampleEnvelope :=
  ⟨by constructor <;> (try constructor) <;> (unfold latin1; decide),
   c1_roundtrip_latin1 sampleEnvelope
     (by constructor <;> (try constructor) <;> (unfold latin1; decide))⟩

/-- Claim C6: an incoming envelope (offer or answer) whose from.userId
equals the local user id is rejected by processConnectionString (it
returns false), regardless of the envelope timestamp: when the envelope
is fresh the self check fires, and when it is stale the expiry check
fires first, so the result is false either way. -/
theorem c6_self_rejected (uid : JStr) (now : Int) (st : SigState) (s : JStr)
    (e : Envelope) (hdec : decodeToJson s = some (envelopeToJson e))
    (hself : e.sender.userId = uid) :
    (processConnectionString uid now st s).1 = false := by
  obtain ⟨k, ⟨u, nick⟩, sid, ⟨dt, sdp⟩, ts⟩ := e
  subst hself
  cases k <;>
      simp [processConnectionString, hdec, envelopeToJson, kindLit, payloadKey,
            objGet, lookupField, jsStrEq, tyKey, fromKey, userIdKey, nicknameKey,
            sessionIdKey, offerLit, answerLit, sdpKey, tsKey]

set_option maxRecDepth 100000 in
/-- Witness for c6_self_rejected: the sample offer submitted to a service
whose local user id equals the offer sender. -/
theorem c6_self_rejected_witness :
    (processConnectionString [117, 49] 1700000000001 emptySigState sampleWire).1
      = false :=
  c6_self_rejected [117, 49] 1700000000001 emptySigState sampleWire
    sampleEnvelope rfl rfl

/-- Claim C3: an envelope whose timestamp is 301000 milliseconds in the
past is rejected, and one 299000 milliseconds old that is otherwise valid
(not self-originated and satisfying the store precondition of its kind)
is accepted. -/
theorem c3_expiry (uid : JStr) (now : Int) (st : SigState) (s1 s2 : JStr)
    (e1 e2 : Envelope)
    (hdec1 : decodeToJson s1 = some (envelopeToJson e1))
    (hts1 : e1.timestamp = now - 301000)
    (hdec2 : decodeToJson s2 = some (envelopeToJson e2))
    (hts2 : e2.timestamp = now - 299000)
    (hself2 : e2.sender.userId ≠ uid)
    (hstore2 : storeOk st e2) :
    (processConnectionString uid now st s1).1 = false ∧
      (processConnectionString uid now st s2).1 = true := by
  constructor
  · obtain ⟨k, ⟨u, nick⟩, sid, ⟨dt, sdp⟩, ts⟩ := e1
    simp only [Envelope.timestamp] at hts1
    subst hts1
    cases k <;>
        simp [processConnectionString, hdec1, envelopeToJson, kindLit, payloadKey,
              objGet, lookupField, jsStrEq, tyKey, fromKey, userIdKey, nicknameKey,
              sessionIdKey, offerLit, answerLit, sdpKey, tsKey,
              show now - (now - 301000) > 300000 from by omega]
  · obtain ⟨k, ⟨u, nick⟩, sid, ⟨dt, sdp⟩, ts⟩ := e2
    simp only [Envelope.timestamp] at hts2
    simp only [Envelope.sender] at hself2
    simp only [storeOk] at hstore2
    subst hts2
    cases k
    · simp [processConnectionString, hdec2, envelopeToJson, kindLit, payloadKey,
            objGet, lookupField, jsStrEq, keyOfField, tyKey, fromKey, userIdKey,
            nicknameKey, sessionIdKey, offerLit, answerLit, sdpKey, tsKey,
            hself2, hstore2,
            show ¬(now - (now - 299000) > 300000) from by omega]
    · obtain ⟨v, hv⟩ := Option.isSome_iff_exists.mp hstore2
      simp [processConnectionString, hdec2, envelopeToJson, kindLit, payloadKey,
            objGet, lookupField, jsStrEq, keyOfField, tyKey, fromKey, userIdKey,
            nicknameKey, sessionIdKey, offerLit, answerLit, sdpKey, tsKey,
            hself2, hv,
            show ¬(now - (now - 299000) > 300000) from by omega]

set_option maxRecDepth 1000000 in
/-- Witness for c3_expiry at the stale and fresh sample offers against
reference time 1700000300000. -/
theorem c3_expiry_witness :
    (processConnectionString [120] 1700000300000 emptySigState sampleStaleWire).1
        = false ∧
      (processConnectionString [120] 1700000300000 emptySigState sampleFreshWire).1
        = true :=
  c3_expiry [120] 1700000300000 emptySigState sampleStaleWire sampleFreshWire
    staleEnvelope freshEnvelope rfl (by decide) rfl (by decide) (by decide) rfl

theorem mapLookup_mapInsert_self (m : SigMap) (k : SessKey) (v : Json) :
    mapLookup (mapInsert m k v) k = some v := by
  induction m with
  | nil => simp [mapInsert, mapLookup]
  | cons kv rest ih =>
      obtain ⟨k2, v2⟩ := kv
      by_cases h : k2 = k
      · simp [mapInsert, h, mapLookup]
      · simp [mapInsert, h, mapLookup, ih]

theorem mapHas_mapSet_prim (m : SigMap) (p : PrimKey) (v : Json) :
    mapHas (mapSet m (SessKey.prim p) v) (SessKey.prim p) = true := by
  simp [mapSet, mapHas, mapGet, mapLookup_mapInsert_self]

/-- Claim C5: an offer that passes the expiry, self-origination and
duplicate checks is accepted on first submission, and the identical
connection string is rejected on second submission (at any later time):
the first call stores the sessionId, so the second either fails the
expiry check or hits the duplicate check. -/
theorem c5_duplicate_offer (uid : JStr) (now1 now2 : Int) (st : SigState) (s : JStr)
    (e : Envelope)
    (hdec : decodeToJson s = some (envelopeToJson e))
    (hkind : e.kind = EnvKind.offer)
    (hself : e.sender.userId ≠ uid)
    (hfresh : now1 - e.timestamp ≤ 300000)
    (hnew : mapHas st.pendingOffers (SessKey.prim (PrimKey.kstr e.sessionId)) = false) :
    (processConnectionString uid now1 st s).1 = true ∧
      (processConnectionString uid now2
        (processConnectionString uid now1 st s).2 s).1 = false := by
  obtain ⟨k, ⟨u, nick⟩, sid, ⟨dt, sdp⟩, ts⟩ := e
  simp only [Envelope.kind] at hkind
  subst hkind
  simp only [Envelope.sender, FromInfo.userId] at hself
  simp only [Envelope.timestamp] at hfresh
  simp only [Envelope.sessionId] at hnew
  have h1 : processConnectionString uid now1 st s
      = (true,
         ⟨mapSet st.pendingOffers (SessKey.prim (PrimKey.kstr sid))
            (envelopeToJson ⟨EnvKind.offer, ⟨u, nick⟩, sid, ⟨dt, sdp⟩, ts⟩),
          st.pendingAnswers⟩) := by
    simp [processConnectionString, hdec, envelopeToJson, kindLit, payloadKey,
          objGet, lookupField, jsStrEq, keyOfField, tyKey, fromKey, userIdKey,
          nicknameKey, sessionIdKey, offerLit, answerLit, sdpKey, tsKey,
          hself, hnew, show ¬(now1 - ts > 300000) from by omega]
  refine ⟨by rw [h1], ?_⟩
  rw [h1]
  by_cases h2 : now2 - ts > 300000
  · simp [processConnectionString, hdec, envelopeToJson, kindLit, payloadKey,
          objGet, lookupField, jsStrEq, keyOfField, tyKey, fromKey, userIdKey,
          nicknameKey, sessionIdKey, offerLit, answerLit, sdpKey, tsKey, h2]
  · simp [processConnectionString, hdec, envelopeToJson, kindLit, payloadKey,
          objGet, lookupField, jsStrEq, keyOfField, tyKey, fromKey, userIdKey,
          nicknameKey, sessionIdKey, offerLit, answerLit, sdpKey, tsKey,
          hself, h2, mapHas_mapSet_prim]

set_option maxRecDepth 1000000 in
/-- Witness for c5_duplicate_offer: the sample offer accepted once and
rejected when resubmitted one millisecond later. -/
theorem c5_duplicate_offer_witness :
    (processConnectionString [120] 1700000000001 emptySigState sampleWire).1
        = true ∧
      (processConnectionString [120] 1700000000002
        (processConnectionString [120] 1700000000001 emptySigState sampleWire).2
        sampleWire).1 = false :=
  c5_duplicate_offer [120] 1700000000001 1700000000002 emptySigState sampleWire
    sampleEnvelope rfl rfl (by decide) (by decide) rfl

/-- Claim C10: an answer envelope that is fresh and not self-originated
but whose sessionId matches no stored pending offer is rejected and the
service state is returned unchanged: neither pending store is touched. -/
theorem c10_answer_without_offer (uid : JStr) (now : Int) (st : SigState) (s : JStr)
    (e : Envelope)
    (hdec : decodeToJson s = some (envelopeToJson e))
    (hkind : e.kind = EnvKind.answer)
    (hself : e.sender.userId ≠ uid)
    (hfresh : now - e.timestamp ≤ 300000)
    (hnone : mapGet st.pendingOffers (SessKey.prim (PrimKey.kstr e.sessionId)) = none) :
    processConnectionString uid now st s = (false, st) := by
  obtain ⟨k, ⟨u, nick⟩, sid, ⟨dt, sdp⟩, ts⟩ := e
  simp only [Envelope.kind] at hkind
  subst hkind
  simp only [Envelope.sender, FromInfo.userId] at hself
  simp only [Envelope.timestamp] at hfresh
  simp only [Envelope.sessionId] at hnone
  simp [processConnectionString, hdec, envelopeToJson, kindLit, payloadKey,
        objGet, lookupField, jsStrEq, keyOfField, tyKey, fromKey, userIdKey,
        nicknameKey, sessionIdKey, offerLit, answerLit, sdpKey, tsKey,
        hself, hnone, show ¬(now - ts > 300000) from by omega]

set_option maxRecDepth 1000000 in
/-- Witness for c10_answer_without_offer: the sample answer against an
empty pending store. -/
theorem c10_answer_without_offer_witness :
    processConnectionString [120] 1700000000001 emptySigState sampleAnswerWire
      = (false, emptySigState) :=
  c10_answer_without_offer [120] 1700000000001 emptySigState sampleAnswerWire
    sampleAnswer rfl rfl (by decide) (by decide) rfl

/-- Claim C2, as stated, is false on the code: WebRTCManager.createOffer
and handleInvite await the gatheredCandidates promise, which resolves
only when an onicecandidate event carries a null candidate.  On a trace
where the transport delivers one real candidate and never signals the end
of gathering, the wait never resolves, so no five second (or any) bound
holds for these entry points. -/
theorem c2_counterexample :
    ¬ ∃ t, gatheredCandidatesWait [(100, some [99])] = some t ∧ t ≤ 5000 := by
  rintro ⟨t, ht, -⟩
  simp [gatheredCandidatesWait] at ht

/-- Claim C2 (amended): the bounded wait holds for
WebRTCService.waitForIceCandidates, used by initiateConnection and
handleConnectionOffer: for every initial gathering state and every
completion event time, including a transport that never signals
completion, the wait resolves within 5000 milliseconds. -/
theorem c2_wait_bounded (initiallyComplete : Bool) (completeEventAt : Option Nat) :
    waitForIceCandidates initiallyComplete completeEventAt ≤ 5000 := by
  unfold waitForIceCandidates
  split_ifs
  · omega
  · cases completeEventAt with
    | none => exact le_refl 5000
    | some t =>
        show (if t ≤ 5000 then t else 5000) ≤ 5000
        split_ifs <;> omega

/-- Claim C4, as stated, is false on the code: joinRoom itself schedules
exactly one peer-info send to all peers (the 1000 millisecond broadcast),
not three. -/
theorem c4_counterexample :
    ¬ ((joinRoomAnnounceTimers ⟨[97], [114], [117, 49], [78]⟩).length = 3) := by
  decide

/-- Claim C4 (amended): on join the orchestrator schedules exactly one
broadcast of the local peer-info to all peers, 1000 milliseconds after
join; the immediate send and the 500 millisecond resend are performed by
the mesh peer-join handler and are directed only at the newly detected
peer. -/
theorem c4_announce_schedule (cfg : TrysteroConfig) (peerId : JStr) :
    joinRoomAnnounceTimers cfg = [⟨1000, trysteroMyInfo cfg, SendTarget.all⟩] ∧
      onMeshPeerJoinSends cfg peerId
        = [⟨0, trysteroMyInfo cfg, SendTarget.peer peerId⟩,
           ⟨500, trysteroMyInfo cfg, SendTarget.peer peerId⟩] :=
  ⟨rfl, rfl⟩

/-- Claim C7: in every execution of the readiness interval in which the
room records no peer and the readiness condition never holds (the
sendMessage action is only ever observed together with an elapsed time
under the two second grace), once some tick observes at least ten
seconds of elapsed time the machine has emitted the failure event exactly
once, emitted no ready event, and cleared the interval, so no later tick
can emit a second failure. -/
theorem c7_failed_exactly_once (o : Nat → ReadyObs) (elapsed : Nat → Nat) (m : Nat)
    (hnop : ∀ k, (o k).peerCount = 0)
    (hnosend : ∀ k, (o k).hasSendMessage = true → elapsed k < 2000)
    (hceil : ∃ k, 1 ≤ k ∧ k ≤ m ∧ 10000 ≤ elapsed k) :
    runReady o elapsed m = ⟨false, false, 0, 1⟩ := by
  have hrc : ∀ k, readyCond (o k) (elapsed k) = false := by
    intro k
    have hp := hnop k
    unfold readyCond
    cases hs : (o k).hasSendMessage with
    | false => simp
    | true =>
        have hlt := hnosend k hs
        simp [hp]
        omega
  have main : ∀ n, ((∀ j, 1 ≤ j → j ≤ n → elapsed j < 10000) →
        runReady o elapsed n = readyInit) ∧
      ((∃ j, 1 ≤ j ∧ j ≤ n ∧ 10000 ≤ elapsed j) →
        runReady o elapsed n = ⟨false, false, 0, 1⟩) := by
    intro n
    induction n with
    | zero =>
        constructor
        · intro _; rfl
        · rintro ⟨j, hj1, hj0, -⟩; omega
    | succ n ih =>
        constructor
        · intro hall
          have hn := ih.1 (fun j h1 h2 => hall j h1 (by omega))
          show readyTick (o (n + 1)) (elapsed (n + 1)) (runReady o elapsed n)
              = readyInit
          rw [hn]
          have hlt := hall (n + 1) (by omega) (by omega)
          unfold readyTick readyInit
          simp [hrc (n + 1)]
          omega
        · rintro ⟨j, hj1, hj2, hj10⟩
          by_cases hprev : ∃ i, 1 ≤ i ∧ i ≤ n ∧ 10000 ≤ elapsed i
          · have hn := ih.2 hprev
            show readyTick (o (n + 1)) (elapsed (n + 1)) (runReady o elapsed n)
                = ⟨false, false, 0, 1⟩
            rw [hn]
            rfl
          · have hall : ∀ i, 1 ≤ i → i ≤ n → elapsed i < 10000 := by
              intro i h1 h2
              by_contra hc
              exact hprev ⟨i, h1, h2, by omega⟩
            have hn := ih.1 hall
            have hk : 10000 ≤ elapsed (n + 1) := by
              rcases Nat.lt_or_ge j (n + 1) with hlt | hge
              · exact absurd ⟨j, hj1, by omega, hj10⟩ hprev
              · have hj : j = n + 1 := by omega
                rw [← hj]
                exact hj10
            show readyTick (o (n + 1)) (elapsed (n + 1)) (runReady o elapsed n)
                = ⟨false, false, 0, 1⟩
            rw [hn]
            unfold readyTick readyInit
            simp [hrc (n + 1), hk]
  exact (main m).2 hceil

/-- Witness for c7_failed_exactly_once: a trace with no sendMessage
action and no peers, ticks every 500 milliseconds, run for 25 ticks. -/
theorem c7_failed_exactly_once_witness :
    runReady (fun _ => ⟨false, 0⟩) (fun k => 500 * k) 25 = ⟨false, false, 0, 1⟩ :=
  c7_failed_exactly_once (fun _ => ⟨false, 0⟩) (fun k => 500 * k) 25
    (fun _ => rfl) (fun k h => by simp at h) ⟨20, by decide, by decide, by decide⟩

/-- Claim C8: send on a channel that is not in the open state returns a
falsy value and does not throw.  WebRTCManager.send returns null (none)
whenever there is no peer, the peer has no data channel, or the channel
readyState differs from open; TrysteroManager.send returns null whenever
the room or its sendMessage action is absent.  Both models are total
functions: every failure is the null return, never an exception. -/
theorem c8_send_not_open (peer : Option PeerSt) (uid uname nid : JStr) (now : Int)
    (text : Option JStr) (file : Option (JStr × JStr × Int)) (fb : Option JStr)
    (hasRoom hasSendMessage hasSendFile : Bool)
    (hclosed : channelIsOpen peer = false)
    (hnoroom : hasRoom = false ∨ hasSendMessage = false) :
    webrtcManagerSend peer uid uname nid now text file fb = none ∧
      trysteroManagerSend hasRoom hasSendMessage hasSendFile uid uname nid now
        text file fb = none := by
  constructor
  · unfold webrtcManagerSend
    rw [if_pos hclosed]
  · unfold trysteroManagerSend
    rw [if_pos hnoroom]

/-- Witness for c8_send_not_open: a peer whose data channel is in the
closed readyState and a manager with no room joined. -/
theorem c8_send_not_open_witness :
    webrtcManagerSend (some ⟨[112], some ⟨[99, 108, 111, 115, 101, 100]⟩⟩)
        [117] [85] [109] 1700000000000 (some [104, 105]) none none = none ∧
      trysteroManagerSend false false false [117] [85] [109] 1700000000000
        (some [104, 105]) none none = none :=
  c8_send_not_open (some ⟨[112], some ⟨[99, 108, 111, 115, 101, 100]⟩⟩)
    [117] [85] [109] 1700000000000 (some [104, 105]) none none false false false
    (by decide) (Or.inl rfl)

set_option maxRecDepth 1000000 in
/-- Claim C9 at the failing input: WebRTCManager.send transmits a file
message as a JSON string frame (here a file named a.png of type
image/png, declared size 1024, content bytes 1, 2, 3, so base64 data
AQID).  The onmessage string branch delivers the parsed message with its
file metadata intact but with the base64 data field still present and no
url resource attached: the base64 decode and createObjectURL logic sits
only in the ArrayBuffer branch, which a string frame never reaches.  The
base64 codec itself round-trips the bytes, as the intended decode in the
sibling variant of this manager does. -/
theorem c9_file_receive_not_decoded :
    ((onDataChannelMessage (WireData.str (fileMessageUnits [109] [117, 49] [65]
        1700000000000 [97, 46, 112, 110, 103]
        [105, 109, 97, 103, 101, 47, 112, 110, 103] 1024
        (arrayBufferToBase64 [1, 2, 3])))).bind
      (fun msg => objGet msg fileKey))
        = some (Json.obj
            [(nameKey, Json.str [97, 46, 112, 110, 103]),
             (tyKey, Json.str [105, 109, 97, 103, 101, 47, 112, 110, 103]),
             (sizeKey, Json.num 1024),
             (dataKey, Json.str [65, 81, 73, 68])]) ∧
      base64ToArrayBuffer [65, 81, 73, 68] = some [1, 2, 3] :=
  ⟨rfl, rfl⟩
